import Mathlib

/-!
Verification of the scanreader multiROI geometry model
(`src/scanreader/multiroi.py`) against its natural-language specification.

The Python module is shallowly embedded as follows:

* Python `int` pixel quantities (`height_px`, `width_px`, slice bounds)
  become `ℕ` (they are pixel counts / pixel offsets, always nonnegative
  in this module); depths become `ℤ`; scan-angle-degree quantities and
  time offsets become `ℚ`.
* `numpy.isclose` with default tolerances is modelled exactly over `ℚ`:
  `|a - b| ≤ atol + rtol * |b|` with `atol = 10⁻⁸`, `rtol = 10⁻⁵`
  (note the asymmetry: the relative term uses the second argument).
* A Python `slice(start, stop)` object becomes the `Slice` structure.
* The lazily cached, depth-sorted scanfield list of `ROI` is the result
  of a stable sort by depth (Python `sorted` is stable); it is modelled
  with `List.insertionSort`, which is stable.
* `ROI.get_field_at` can raise: on the continuous interpolation path
  the assertion on line 131 of the source references the name `xp`,
  which is not defined in that scope, so reaching it raises `NameError`;
  `min`/`max` of an empty list raise `ValueError`.  The function is
  therefore embedded with result type `Except PyErr (Option Field)`,
  where `Option` models the "absent result" (`None`) contract.
* A Python attribute holding `None` where a list is expected later
  (`Field` built by `Scanfield.as_field`) is modelled as the empty list
  (resp. `none` for `slice_id`); no claim exercises those attributes on
  such fields.
-/

namespace Scanreader

attribute [local semireducible] Rat.add Rat.sub Rat.mul Rat.inv Rat.ofScientific

deriving instance DecidableEq for Except

/-- A Python `slice(start, stop)` object with nonnegative bounds, as used
for the pixel source/placement slices of a `Field`. -/
structure Slice where
  start : Nat
  stop : Nat
deriving DecidableEq

/-- The five contiguity classifications of the `Position` class
(source lines 426-431). -/
inductive Position where
  | NONCONTIGUOUS
  | ABOVE
  | BELOW
  | LEFT
  | RIGHT
deriving DecidableEq

/-- `numpy.isclose` at default tolerances (`rtol = 1e-05`, `atol = 1e-08`):
`|a - b| <= atol + rtol * |b|`, modelled exactly over `ℚ`. -/
def isclose (a b : ℚ) : Bool :=
  decide (|a - b| ≤ 1 / 100000000 + (1 / 100000) * |b|)

/-- The `Scanfield` class (source lines 156-206): geometry of one ROI at
one fixed depth. -/
structure Scanfield where
  height_px : Nat
  width_px : Nat
  depth : Int
  y_center_coordinate : ℚ
  x_center_coordinate : ℚ
  height_in_degrees : ℚ
  width_in_degrees : ℚ
deriving DecidableEq

/-- The `Field` class (source lines 222-317): a scanfield extended with
slice bookkeeping.  Attributes that the source leaves as `None` are
modelled as `[]` (resp. `none`). -/
structure Field where
  height_px : Nat
  width_px : Nat
  depth : Int
  y_center_coordinate : ℚ
  x_center_coordinate : ℚ
  height_in_degrees : ℚ
  width_in_degrees : ℚ
  yslices : List Slice := []
  xslices : List Slice := []
  output_yslices : List Slice := []
  output_xslices : List Slice := []
  slice_id : Option Int := none
  roi_ids : List Int := []
  offsets : List ℚ := []
deriving DecidableEq

/-- `Scanfield.as_field` (source lines 208-219): copy the geometry into a
fresh `Field`; the slice attributes are left unset (`None`, modelled as
`[]`/`none`). -/
def as_field (sf : Scanfield) : Field :=
  { height_px := sf.height_px, width_px := sf.width_px, depth := sf.depth,
    y_center_coordinate := sf.y_center_coordinate,
    x_center_coordinate := sf.x_center_coordinate,
    height_in_degrees := sf.height_in_degrees,
    width_in_degrees := sf.width_in_degrees }

/-- `Field._type_of_contiguity` (source lines 342-365), translated
statement by statement; the sequential overwrites of the local variable
`position` become `let` shadowing.  Note that the horizontal block ends
in a bare `else` that yields `RIGHT` without testing the right-side
distance (source line 363-364). -/
def type_of_contiguity (self field2 : Field) : Position :=
  let position := Position.NONCONTIGUOUS
  let position :=
    if isclose self.width_in_degrees field2.width_in_degrees then
      let expected_distance := self.height_in_degrees / 2 + field2.height_in_degrees / 2
      let position :=
        if isclose self.y_center_coordinate (field2.y_center_coordinate + expected_distance) then
          Position.ABOVE
        else position
      let position :=
        if isclose field2.y_center_coordinate (self.y_center_coordinate + expected_distance) then
          Position.BELOW
        else position
      position
    else position
  let position :=
    if isclose self.height_in_degrees field2.height_in_degrees then
      let expected_distance := self.width_in_degrees / 2 + field2.width_in_degrees / 2
      if isclose self.x_center_coordinate (field2.x_center_coordinate + expected_distance) then
        Position.LEFT
      else
        Position.RIGHT
    else position
  position

/-- `Field.is_contiguous_to` (source lines 367-369). -/
def is_contiguous_to (self field2 : Field) : Bool :=
  decide (¬ (type_of_contiguity self field2 = Position.NONCONTIGUOUS))

/-- `Field.join_with` (source lines 371-423), embedded as a transformer of
the pair state `(self, field2)`.  Every assignment in the method body
targets an attribute of `self`; the reads of `field2` are list
concatenations and comprehensions, both of which build new lists, so no
statement updates the second component.  The `let` shadowing of the first
component mirrors the successive in-place mutations of `self`; the pixel
shift comprehensions of lines 383-384, 389-390, 401-402 and 407-408
become `List.map`. -/
def join_with_state (self0 field20 : Field) : Field × Field :=
  let st := (self0, field20)
  let contiguity := type_of_contiguity st.1 st.2
  -- lines 379-396: contiguous in the y axis
  let st :=
    if contiguity = Position.ABOVE ∨ contiguity = Position.BELOW then
      let self := st.1
      let field2 := st.2
      let vert :=
        if contiguity = Position.ABOVE then
          -- field2 is above/atop self
          (field2.y_center_coordinate + self.height_in_degrees / 2,
           self.output_yslices.map fun s =>
             Slice.mk (s.start + field2.height_px) (s.stop + field2.height_px),
           field2.output_yslices)
        else
          -- field2 is below self
          (self.y_center_coordinate + field2.height_in_degrees / 2,
           self.output_yslices,
           field2.output_yslices.map fun s =>
             Slice.mk (s.start + self.height_px) (s.stop + self.height_px))
      ({ self with
          y_center_coordinate := vert.1,
          height_px := self.height_px + field2.height_px,
          height_in_degrees := self.height_in_degrees + field2.height_in_degrees,
          output_yslices := vert.2.1 ++ vert.2.2,
          output_xslices := self.output_xslices ++ field2.output_xslices },
       field2)
    else st
  -- lines 397-415: contiguous in the x axis
  let st :=
    if contiguity = Position.LEFT ∨ contiguity = Position.RIGHT then
      let self := st.1
      let field2 := st.2
      let horiz :=
        if contiguity = Position.LEFT then
          -- field2 is to the left of self
          (field2.x_center_coordinate + self.width_in_degrees / 2,
           self.output_xslices.map fun s =>
             Slice.mk (s.start + field2.width_px) (s.stop + field2.width_px),
           field2.output_xslices)
        else
          -- field2 is to the right of self
          (self.x_center_coordinate + field2.width_in_degrees / 2,
           self.output_xslices,
           field2.output_xslices.map fun s =>
             Slice.mk (s.start + self.width_px) (s.stop + self.width_px))
      ({ self with
          x_center_coordinate := horiz.1,
          width_px := self.width_px + field2.width_px,
          width_in_degrees := self.width_in_degrees + field2.width_in_degrees,
          output_yslices := self.output_yslices ++ field2.output_yslices,
          output_xslices := horiz.2.1 ++ horiz.2.2 },
       field2)
    else st
  -- lines 417-423: slices, roi ids and offsets get appended regardless
  ({ st.1 with
      yslices := st.1.yslices ++ st.2.yslices,
      xslices := st.1.xslices ++ st.2.xslices,
      roi_ids := st.1.roi_ids ++ st.2.roi_ids,
      offsets := st.1.offsets ++ st.2.offsets },
   st.2)

/-- The receiver after `Field.join_with` (the mutated `self`). -/
def join_with (self field2 : Field) : Field :=
  (join_with_state self field2).1

/-- `Field.has_contiguous_subfields` (source lines 319-322). -/
def has_contiguous_subfields (f : Field) : Bool :=
  decide (1 < f.xslices.length)

/-- Conversion of a Python `int` to `numpy.int8` (used by the
`dtype=np.int8` mask of `roi_mask`): wrap-around into `[-128, 128)`. -/
def to_int8 (n : Int) : Int :=
  (n + 128) % 256 - 128

/-- Membership of a pixel index in a Python `slice(start, stop)` as used
by basic numpy indexing `mask[yslice, xslice]`. -/
def slice_contains (s : Slice) (i : Nat) : Bool :=
  decide (s.start ≤ i ∧ i < s.stop)

/-- One step of the `roi_mask` paint loop (source lines 328-330): the
assignment `mask[output_yslice, output_xslice] = roi_id` sets every pixel
of the rectangle to the id (cast to `int8` by the `dtype` of the mask)
and leaves every other pixel unchanged. -/
def paint (mask : Nat → Nat → Int) (e : Int × Slice × Slice) : Nat → Nat → Int :=
  fun i j =>
    if slice_contains e.2.1 i && slice_contains e.2.2 j then to_int8 e.1 else mask i j

/-- `Field.roi_mask` (source lines 324-331): an `int8` grid of shape
`height_px × width_px`, initialized to `-1`, painted by the zipped
`(roi_ids, output_yslices, output_xslices)` entries in list order.  The
grid is modelled as a function of the pixel indices; the claims about it
quantify over `i < height_px`, `j < width_px`. -/
def roi_mask (f : Field) : Nat → Nat → Int :=
  (f.roi_ids.zip (f.output_yslices.zip f.output_xslices)).foldl paint
    (fun _ _ => (-1 : Int))

/-- Exceptions that `ROI.get_field_at` can raise: the `NameError` from the
undefined name `xp` on source line 131, and the `ValueError` from
`min([])`/`max([])` on source line 118 when a continuous ROI has no
scanfields. -/
inductive PyErr where
  | nameError
  | valueError
deriving DecidableEq

/-- The `ROI` class (source lines 5-44), reduced to the data that
`get_field_at` consumes: the `discretePlaneMode` flag of `roi_info` and
the scanfield descriptors already unpacked (lines 57-82 only transcribe
dictionary entries into `Scanfield` attributes), in their definition
order, before the construction-time sort. -/
structure ROI where
  discretePlaneMode : Bool
  scanfieldInfos : List Scanfield
deriving DecidableEq

/-- `ROI._create_scanfields`, line 85: sort the scanfields by depth.
Python `sorted` is a stable sort, modelled by the (stable)
`List.insertionSort`. -/
def create_scanfields (roi : ROI) : List Scanfield :=
  List.insertionSort (fun a b => a.depth ≤ b.depth) roi.scanfieldInfos

/-- The `ROI.scanfields` cached property (source lines 36-40): in this
pure model memoization is the identity, so the cache is just
`create_scanfields`. -/
def scanfields (roi : ROI) : List Scanfield :=
  create_scanfields roi

/-- `ROI.is_discrete_plane_mode_on` (source lines 42-44). -/
def is_discrete_plane_mode_on (roi : ROI) : Bool :=
  roi.discretePlaneMode

/-- `ROI.get_field_at` (source lines 89-153).  The discrete branch keeps
overwriting `field` with the latest match, so the last matching scanfield
of the cache wins.  On the continuous interpolation branch (two or more
scanfields, query inside the inclusive depth range) the execution reaches
the assertion of source line 131, `assert np.all(np.diff(xp) > 0)`, whose
name `xp` is not defined in that scope, so the call raises `NameError`
before any interpolated attribute can be returned; the statements after
line 131 are unreachable.  `min`/`max` of the empty depth list (zero
scanfields in continuous mode) raise `ValueError`. -/
def get_field_at (roi : ROI) (scanning_depth : Int) : Except PyErr (Option Field) :=
  let sfs := scanfields roi
  if is_discrete_plane_mode_on roi then
    -- lines 107-110: only check at each scanfield depth
    Except.ok (sfs.foldl
      (fun field sf =>
        if scanning_depth = sf.depth then some (as_field sf) else field)
      none)
  else
    if sfs.length = 1 then
      -- lines 112-114: single scanfield extending from -inf to inf
      Except.ok (sfs.head?.map fun sf => { as_field sf with depth := scanning_depth })
    else
      -- lines 116-151: interpolate between scanfields
      let scanfield_depths := sfs.map (·.depth)
      match scanfield_depths.min?, scanfield_depths.max? with
      | some lo, some hi =>
          if lo ≤ scanning_depth ∧ scanning_depth ≤ hi then
            -- line 131: `assert np.all(np.diff(xp) > 0)` with `xp` undefined
            Except.error PyErr.nameError
          else
            Except.ok none
      | _, _ => Except.error PyErr.valueError

/-! ### Concrete instances used by counterexamples and witnesses -/

/-- Two 1°×1° fields in the same column, the first one exactly one
half-height-sum above the second: vertically adjacent, not horizontally
adjacent. -/
def field_stack_lo : Field :=
  { height_px := 10, width_px := 10, depth := 0,
    y_center_coordinate := 1, x_center_coordinate := 0,
    height_in_degrees := 1, width_in_degrees := 1 }

/-- The upper member of the stacked pair (same geometry, center at the
origin). -/
def field_stack_hi : Field := { field_stack_lo with y_center_coordinate := 0 }

/-- A field whose width differs from `10` by `0.0001000095`: within
`np.isclose` tolerance of `10` when `10` is the second argument, outside
it when the arguments are swapped.  Its height (1°) is far from the
height of `field_tol_b` (3°), and its center sits exactly one
half-height-sum (2°) above that of `field_tol_b`. -/
def field_tol_a : Field :=
  { height_px := 10, width_px := 10, depth := 0,
    y_center_coordinate := 2, x_center_coordinate := 0,
    height_in_degrees := 1, width_in_degrees := 10 - 1000095 / 10000000000 }

/-- The partner of `field_tol_a`, with width exactly `10`. -/
def field_tol_b : Field :=
  { height_px := 10, width_px := 10, depth := 0,
    y_center_coordinate := 0, x_center_coordinate := 0,
    height_in_degrees := 3, width_in_degrees := 10 }

/-- Scanfield at depth 0 with 100-pixel height, as in the spec example. -/
def scanfield_d0 : Scanfield :=
  { height_px := 100, width_px := 100, depth := 0,
    y_center_coordinate := 0, x_center_coordinate := 0,
    height_in_degrees := 1, width_in_degrees := 1 }

/-- Scanfield at depth 10 with 200-pixel height, as in the spec example. -/
def scanfield_d10 : Scanfield :=
  { scanfield_d0 with height_px := 200, width_px := 200, depth := 10 }

/-- Continuous-mode ROI with scanfields at depths 0 and 10 (heights 100
and 200 pixels), the input of the spec interpolation example. -/
def roi_continuous : ROI :=
  { discretePlaneMode := false, scanfieldInfos := [scanfield_d0, scanfield_d10] }

/-- First-defined scanfield at depth 5. -/
def scanfield_dup1 : Scanfield := { scanfield_d0 with depth := 5 }

/-- Second-defined scanfield at depth 5 (different height, so the two
duplicates produce different fields). -/
def scanfield_dup2 : Scanfield := { scanfield_d0 with depth := 5, height_px := 42 }

/-- Discrete-plane-mode ROI with two scanfields both at depth 5. -/
def roi_discrete : ROI :=
  { discretePlaneMode := true, scanfieldInfos := [scanfield_dup1, scanfield_dup2] }

/-- Receiver of the vertical-join example: a 1°-high field whose center
sits one half-height-sum (2°) above `field_join_hi`, with one entry in
every slice list. -/
def field_join_lo : Field :=
  { height_px := 10, width_px := 10, depth := 0,
    y_center_coordinate := 2, x_center_coordinate := 0,
    height_in_degrees := 1, width_in_degrees := 1,
    yslices := [⟨0, 10⟩], xslices := [⟨0, 10⟩],
    output_yslices := [⟨0, 10⟩], output_xslices := [⟨0, 10⟩],
    roi_ids := [1], offsets := [0] }

/-- The absorbed field of the vertical-join example: 3° high and 20
pixels tall, classified `ABOVE` the receiver (it is the vertical origin
of the merged output), with one entry in every slice list. -/
def field_join_hi : Field :=
  { height_px := 20, width_px := 10, depth := 0,
    y_center_coordinate := 0, x_center_coordinate := 0,
    height_in_degrees := 3, width_in_degrees := 1,
    yslices := [⟨0, 20⟩], xslices := [⟨0, 10⟩],
    output_yslices := [⟨0, 20⟩], output_xslices := [⟨0, 10⟩],
    roi_ids := [2], offsets := [1] }

/-- A 1×1 field whose single placement region carries roi id 200, which
does not fit in `int8`. -/
def field_mask_big_id : Field :=
  { height_px := 1, width_px := 1, depth := 0,
    y_center_coordinate := 0, x_center_coordinate := 0,
    height_in_degrees := 1, width_in_degrees := 1,
    yslices := [⟨0, 1⟩], xslices := [⟨0, 1⟩],
    output_yslices := [⟨0, 1⟩], output_xslices := [⟨0, 1⟩],
    roi_ids := [200], offsets := [0] }

/-- A 2×2 field with two overlapping placement regions (ids 3 and 5),
used to witness the `roi_mask` characterization. -/
def field_mask_two : Field :=
  { height_px := 2, width_px := 2, depth := 0,
    y_center_coordinate := 0, x_center_coordinate := 0,
    height_in_degrees := 1, width_in_degrees := 1,
    yslices := [⟨0, 2⟩, ⟨0, 1⟩], xslices := [⟨0, 2⟩, ⟨0, 2⟩],
    output_yslices := [⟨0, 2⟩, ⟨0, 1⟩], output_xslices := [⟨0, 2⟩, ⟨0, 2⟩],
    roi_ids := [3, 5], offsets := [0, 1] }

/-! ### Helper lemmas -/

/-- Characterization of the `ABOVE` outcome of the classifier: the
heights must fail their closeness test (otherwise the horizontal block
overwrites the result with `LEFT` or `RIGHT`), the widths must pass
theirs, the above-distance test must pass and the below-distance test
must fail (otherwise `BELOW`, tested afterwards, wins). -/
lemma type_of_contiguity_eq_above_iff (f1 f2 : Field) :
    type_of_contiguity f1 f2 = Position.ABOVE ↔
      isclose f1.height_in_degrees f2.height_in_degrees = false ∧
      isclose f1.width_in_degrees f2.width_in_degrees = true ∧
      isclose f1.y_center_coordinate (f2.y_center_coordinate +
        (f1.height_in_degrees / 2 + f2.height_in_degrees / 2)) = true ∧
      isclose f2.y_center_coordinate (f1.y_center_coordinate +
        (f1.height_in_degrees / 2 + f2.height_in_degrees / 2)) = false := by
  cases hgt : isclose f1.height_in_degrees f2.height_in_degrees <;>
    cases hwc : isclose f1.width_in_degrees f2.width_in_degrees <;>
      cases hab : isclose f1.y_center_coordinate (f2.y_center_coordinate +
          (f1.height_in_degrees / 2 + f2.height_in_degrees / 2)) <;>
        cases hbe : isclose f2.y_center_coordinate (f1.y_center_coordinate +
            (f1.height_in_degrees / 2 + f2.height_in_degrees / 2)) <;>
          cases hlf : isclose f1.x_center_coordinate (f2.x_center_coordinate +
              (f1.width_in_degrees / 2 + f2.width_in_degrees / 2)) <;>
            simp [type_of_contiguity, hgt, hwc, hab, hbe, hlf]

/-- The discrete-mode lookup loop of `get_field_at` (fold keeping the
latest match) returns the last element of the list whose depth equals
the query, converted by `as_field`, or the initial value if none
matches. -/
lemma foldl_last_match (d : Int) (l : List Scanfield) (init : Option Field) :
    l.foldl (fun field sf => if d = sf.depth then some (as_field sf) else field) init =
      ((l.filter fun sf => decide (d = sf.depth)).getLast?).elim init
        (fun sf => some (as_field sf)) := by
  induction l using List.reverseRecOn with
  | nil => rfl
  | append_singleton t a ih =>
      rw [List.foldl_append, List.filter_append]
      cases hp : decide (d = a.depth)
      · have hp2 : ¬ d = a.depth := of_decide_eq_false hp
        simp [hp, hp2, ih]
      · have hp2 : d = a.depth := of_decide_eq_true hp
        simp [hp, hp2, List.getLast?_concat]

/-- Inserting a scanfield whose depth equals `d` into a list places it
before every later element of equal depth, so the depth-`d`
subsequence gains the new element at its front. -/
lemma filter_orderedInsert_pos (d : Int) (a : Scanfield) (l : List Scanfield)
    (ha : decide (d = a.depth) = true) :
    (List.orderedInsert (fun x y : Scanfield => x.depth ≤ y.depth) a l).filter
        (fun sf => decide (d = sf.depth)) =
      a :: l.filter (fun sf => decide (d = sf.depth)) := by
  induction l with
  | nil => simp [List.orderedInsert, ha]
  | cons b t ih =>
      by_cases hr : a.depth ≤ b.depth
      · simp [List.orderedInsert, hr, ha]
      · have h1 : d = a.depth := of_decide_eq_true ha
        have hne : decide (d = b.depth) = false := by
          simp only [decide_eq_false_iff_not]
          omega
        simp [List.orderedInsert, hr, hne, ih]

/-- Inserting a scanfield of a different depth leaves the depth-`d`
subsequence unchanged. -/
lemma filter_orderedInsert_neg (d : Int) (a : Scanfield) (l : List Scanfield)
    (ha : decide (d = a.depth) = false) :
    (List.orderedInsert (fun x y : Scanfield => x.depth ≤ y.depth) a l).filter
        (fun sf => decide (d = sf.depth)) =
      l.filter (fun sf => decide (d = sf.depth)) := by
  induction l with
  | nil => simp [List.orderedInsert, ha]
  | cons b t ih =>
      by_cases hr : a.depth ≤ b.depth
      · simp [List.orderedInsert, hr, ha]
      · simp [List.orderedInsert, hr, List.filter_cons, ih]

/-- Stability of the construction-time sort: the subsequence of
scanfields at any fixed depth `d` is the same before and after sorting
by depth, so "later definition at the same depth" is preserved by the
sort. -/
lemma filter_insertionSort (d : Int) (l : List Scanfield) :
    (List.insertionSort (fun x y : Scanfield => x.depth ≤ y.depth) l).filter
        (fun sf => decide (d = sf.depth)) =
      l.filter (fun sf => decide (d = sf.depth)) := by
  induction l with
  | nil => rfl
  | cons a t ih =>
      simp only [List.insertionSort]
      cases hp : decide (d = a.depth)
      · rw [filter_orderedInsert_neg d a _ hp, ih, List.filter_cons, hp]
        simp
      · rw [filter_orderedInsert_pos d a _ hp, ih, List.filter_cons, hp]
        simp

/-- The value of the `roi_mask` paint fold at a pixel is determined by
the last list entry covering that pixel: it is the reverse-order first
match, or the background value when nothing covers the pixel. -/
lemma foldl_paint_spec (l : List (Int × Slice × Slice)) (m : Nat → Nat → Int) (i j : Nat) :
    (l.foldl paint m) i j =
      ((l.reverse.find? fun e => slice_contains e.2.1 i && slice_contains e.2.2 j).elim
        (m i j) (fun e => to_int8 e.1)) := by
  induction l using List.reverseRecOn with
  | nil => rfl
  | append_singleton t e ih =>
      rw [List.foldl_append, List.reverse_append]
      cases hc : slice_contains e.2.1 i && slice_contains e.2.2 j
      · simp [List.find?_cons, hc, paint, ih]
      · simp [List.find?_cons, hc, paint]

/-! ### C1 -/

/-- C1: on the spec's own interpolation example — a continuous-mode ROI
with scanfields at depths 0 and 10 of pixel heights 100 and 200, queried
at depth 5 — `get_field_at` does not return the interpolated field of
height 150: the execution reaches the assertion of source line 131,
which references the undefined name `xp`, and raises `NameError`. -/
theorem get_field_at_interpolation_raises :
    get_field_at roi_continuous 5 = Except.error PyErr.nameError := by
  decide

/-! ### C2 -/

/-- C2, counterexample: for the vertically stacked pair
`field_stack_lo`/`field_stack_hi` (equal 1° heights and widths), the
vertical test matches (`ABOVE` conditions hold) and neither horizontal
adjacency distance holds, yet the classifier answers `RIGHT`: the
matched vertical axis is overridden by the horizontal block, and a pair
meeting neither horizontal distance is not classified `NONCONTIGUOUS`. -/
theorem contiguity_override_counterexample :
    isclose field_stack_lo.width_in_degrees field_stack_hi.width_in_degrees = true ∧
    isclose field_stack_lo.y_center_coordinate (field_stack_hi.y_center_coordinate +
      (field_stack_lo.height_in_degrees / 2 + field_stack_hi.height_in_degrees / 2)) = true ∧
    isclose field_stack_lo.x_center_coordinate (field_stack_hi.x_center_coordinate +
      (field_stack_lo.width_in_degrees / 2 + field_stack_hi.width_in_degrees / 2)) = false ∧
    isclose field_stack_hi.x_center_coordinate (field_stack_lo.x_center_coordinate +
      (field_stack_lo.width_in_degrees / 2 + field_stack_hi.width_in_degrees / 2)) = false ∧
    type_of_contiguity field_stack_lo field_stack_hi = Position.RIGHT := by
  decide

/-- C2, amended: the classifier returns a single `Position`, but a
matched vertical axis does not short-circuit — whenever the heights pass
their closeness test the horizontal block runs last and overrides the
result with `LEFT` or `RIGHT` (`RIGHT` without checking the right-side
distance) — and `NONCONTIGUOUS` is returned exactly when the heights
fail their closeness test and the vertical conditions (close widths plus
one of the two half-height-sum center offsets) fail as well. -/
theorem contiguity_classification (f1 f2 : Field) :
    (isclose f1.height_in_degrees f2.height_in_degrees = true →
      type_of_contiguity f1 f2 = Position.LEFT ∨
      type_of_contiguity f1 f2 = Position.RIGHT) ∧
    (type_of_contiguity f1 f2 = Position.NONCONTIGUOUS ↔
      isclose f1.height_in_degrees f2.height_in_degrees = false ∧
      (isclose f1.width_in_degrees f2.width_in_degrees = false ∨
        (isclose f1.y_center_coordinate (f2.y_center_coordinate +
          (f1.height_in_degrees / 2 + f2.height_in_degrees / 2)) = false ∧
         isclose f2.y_center_coordinate (f1.y_center_coordinate +
          (f1.height_in_degrees / 2 + f2.height_in_degrees / 2)) = false))) := by
  cases hgt : isclose f1.height_in_degrees f2.height_in_degrees <;>
    cases hwc : isclose f1.width_in_degrees f2.width_in_degrees <;>
      cases hab : isclose f1.y_center_coordinate (f2.y_center_coordinate +
          (f1.height_in_degrees / 2 + f2.height_in_degrees / 2)) <;>
        cases hbe : isclose f2.y_center_coordinate (f1.y_center_coordinate +
            (f1.height_in_degrees / 2 + f2.height_in_degrees / 2)) <;>
          cases hlf : isclose f1.x_center_coordinate (f2.x_center_coordinate +
              (f1.width_in_degrees / 2 + f2.width_in_degrees / 2)) <;>
            simp [type_of_contiguity, hgt, hwc, hab, hbe, hlf]

/-- C2, witness: the amended theorem applied to the stacked pair, whose
heights pass the closeness test, forces a horizontal answer. -/
theorem contiguity_classification_witness :
    type_of_contiguity field_stack_lo field_stack_hi = Position.LEFT ∨
    type_of_contiguity field_stack_lo field_stack_hi = Position.RIGHT :=
  (contiguity_classification field_stack_lo field_stack_hi).1 (by decide)

/-! ### C4 -/

/-- C4, counterexample: `field_tol_a` is classified `ABOVE`
`field_tol_b`, but the reverse classification is not `BELOW` (it is
`NONCONTIGUOUS`), because the width closeness test of `np.isclose` is
relative to its second argument and fails in the reverse direction. -/
theorem contiguity_symmetry_counterexample :
    type_of_contiguity field_tol_a field_tol_b = Position.ABOVE ∧
    ¬ type_of_contiguity field_tol_b field_tol_a = Position.BELOW := by
  decide

/-- C4, amended: if A is classified `ABOVE` B, and the two closeness
tests also hold in the swapped direction (widths still approximately
equal and heights still not approximately equal with the arguments
exchanged — `np.isclose` is asymmetric in its arguments), then B against
A is classified `BELOW`. -/
theorem contiguity_above_below_symmetric (f1 f2 : Field)
    (h : type_of_contiguity f1 f2 = Position.ABOVE)
    (hw : isclose f2.width_in_degrees f1.width_in_degrees = true)
    (hh : isclose f2.height_in_degrees f1.height_in_degrees = false) :
    type_of_contiguity f2 f1 = Position.BELOW := by
  obtain ⟨hgt, hwc, hab, hbe⟩ := (type_of_contiguity_eq_above_iff f1 f2).mp h
  have hcomm : f2.height_in_degrees / 2 + f1.height_in_degrees / 2 =
      f1.height_in_degrees / 2 + f2.height_in_degrees / 2 := add_comm _ _
  simp [type_of_contiguity, hh, hw, hcomm, hab, hbe]

/-- C4, witness: a pair with exactly equal widths and clearly different
heights, the first one half-height-sum above the second; the reverse
classification is `BELOW`. -/
theorem contiguity_above_below_symmetric_witness :
    type_of_contiguity field_join_hi field_join_lo = Position.BELOW :=
  contiguity_above_below_symmetric field_join_lo field_join_hi
    (by decide) (by decide) (by decide)

/-! ### C5 -/

/-- C5, counterexample: joining `field_join_lo` with `field_join_hi`
(classified `ABOVE`, so `field_join_hi` is the vertical origin at the
top of the merged output) places the shifted receiver slice `[20, 30)`
first and the origin-side slice `[0, 20)` second: the concatenation is
not origin-side first in the `ABOVE` case. -/
theorem join_with_vertical_order_counterexample :
    type_of_contiguity field_join_lo field_join_hi = Position.ABOVE ∧
    (join_with field_join_lo field_join_hi).output_yslices =
      [⟨20, 30⟩, ⟨0, 20⟩] ∧
    (join_with field_join_lo field_join_hi).output_yslices.head? ≠
      some (Slice.mk 0 20) := by
  decide

/-- C5, amended: in a vertical join the placement-y-slices of whichever
field is not the vertical origin are shifted by the other field's pixel
height, and the two lists are concatenated with the receiver's slices
first in both the `ABOVE` and the `BELOW` case (origin-side first only
in the `BELOW` case, where the receiver is the origin). -/
theorem join_with_vertical_placement (f1 f2 : Field) :
    (type_of_contiguity f1 f2 = Position.ABOVE →
      (join_with f1 f2).output_yslices =
        (f1.output_yslices.map fun s =>
          Slice.mk (s.start + f2.height_px) (s.stop + f2.height_px)) ++
        f2.output_yslices) ∧
    (type_of_contiguity f1 f2 = Position.BELOW →
      (join_with f1 f2).output_yslices =
        f1.output_yslices ++
        (f2.output_yslices.map fun s =>
          Slice.mk (s.start + f1.height_px) (s.stop + f1.height_px))) := by
  constructor <;> intro h <;> simp [join_with, join_with_state, h]

/-- C5, witness: the amended theorem applied to the `ABOVE` pair. -/
theorem join_with_vertical_placement_witness :
    (join_with field_join_lo field_join_hi).output_yslices =
      (field_join_lo.output_yslices.map fun s =>
        Slice.mk (s.start + field_join_hi.height_px)
          (s.stop + field_join_hi.height_px)) ++
      field_join_hi.output_yslices :=
  (join_with_vertical_placement field_join_lo field_join_hi).1 (by decide)

/-! ### C6 -/

/-- C6: `join_with` mutates only the receiver; the absorbed field — all
its attributes, including the six bookkeeping lists — is unchanged by
the call (the second component of the pair state is untouched). -/
theorem join_with_preserves_other (f1 f2 : Field)
    (h : is_contiguous_to f1 f2 = true) :
    (join_with_state f1 f2).2 = f2 := by
  simp only [join_with_state]
  split_ifs <;> rfl

/-- C6, witness: joining the contiguous `ABOVE` pair leaves the
absorbed field equal to its pre-join value. -/
theorem join_with_preserves_other_witness :
    (join_with_state field_join_lo field_join_hi).2 = field_join_hi :=
  join_with_preserves_other field_join_lo field_join_hi (by decide)

/-! ### C7 -/

/-- C7: joining contiguous fields whose six lists have lengths `n`
(receiver) and `m` (absorbed) yields a receiver whose six lists all have
length `n + m`; with at least one entry on each side the result reports
`has_contiguous_subfields`.  In particular `n = m = 1` yields exactly
two entries in every list. -/
theorem join_with_slice_list_lengths (f1 f2 : Field) (n m : Nat)
    (h : ¬ type_of_contiguity f1 f2 = Position.NONCONTIGUOUS)
    (h1a : f1.yslices.length = n) (h1b : f1.xslices.length = n)
    (h1c : f1.output_yslices.length = n) (h1d : f1.output_xslices.length = n)
    (h1e : f1.roi_ids.length = n) (h1f : f1.offsets.length = n)
    (h2a : f2.yslices.length = m) (h2b : f2.xslices.length = m)
    (h2c : f2.output_yslices.length = m) (h2d : f2.output_xslices.length = m)
    (h2e : f2.roi_ids.length = m) (h2f : f2.offsets.length = m)
    (hn : 1 ≤ n) (hm : 1 ≤ m) :
    (join_with f1 f2).yslices.length = n + m ∧
    (join_with f1 f2).xslices.length = n + m ∧
    (join_with f1 f2).output_yslices.length = n + m ∧
    (join_with f1 f2).output_xslices.length = n + m ∧
    (join_with f1 f2).roi_ids.length = n + m ∧
    (join_with f1 f2).offsets.length = n + m ∧
    has_contiguous_subfields (join_with f1 f2) = true := by
  rcases hpos : type_of_contiguity f1 f2 with _ | _ | _ | _ | _ <;>
    first
      | exact absurd hpos h
      | (refine ⟨?_, ?_, ?_, ?_, ?_, ?_, ?_⟩ <;>
          simp [join_with, join_with_state, has_contiguous_subfields, hpos,
            h1a, h1b, h1c, h1d, h1e, h1f, h2a, h2b, h2c, h2d, h2e, h2f] <;>
          omega)

/-- C7, witness: the two one-entry fields of the `ABOVE` pair join into
a receiver with two entries in every list and contiguous subfields. -/
theorem join_with_slice_list_lengths_witness :
    (join_with field_join_lo field_join_hi).yslices.length = 1 + 1 ∧
    (join_with field_join_lo field_join_hi).xslices.length = 1 + 1 ∧
    (join_with field_join_lo field_join_hi).output_yslices.length = 1 + 1 ∧
    (join_with field_join_lo field_join_hi).output_xslices.length = 1 + 1 ∧
    (join_with field_join_lo field_join_hi).roi_ids.length = 1 + 1 ∧
    (join_with field_join_lo field_join_hi).offsets.length = 1 + 1 ∧
    has_contiguous_subfields (join_with field_join_lo field_join_hi) = true :=
  join_with_slice_list_lengths field_join_lo field_join_hi 1 1 (by decide)
    rfl rfl rfl rfl rfl rfl rfl rfl rfl rfl rfl rfl (by decide) (by decide)

/-! ### C10 -/

/-- Shifting a slice list by zero pixels is the identity. -/
lemma map_shift_zero (l : List Slice) :
    (l.map fun s => Slice.mk (s.start + 0) (s.stop + 0)) = l := by
  induction l with
  | nil => rfl
  | cons a t ih => simp [ih]

/-- C10: in every contiguity case the receiver's pre-join entries come
before all of the absorbed field's entries in each of the six lists; the
four source/id/offset lists are plain concatenations, and each placement
list is a concatenation of the two original lists with each side shifted
uniformly (by zero where no shift applies), so index alignment across
the six lists is preserved. -/
theorem join_with_receiver_entries_first (f1 f2 : Field)
    (h : ¬ type_of_contiguity f1 f2 = Position.NONCONTIGUOUS) :
    (join_with f1 f2).yslices = f1.yslices ++ f2.yslices ∧
    (join_with f1 f2).xslices = f1.xslices ++ f2.xslices ∧
    (join_with f1 f2).roi_ids = f1.roi_ids ++ f2.roi_ids ∧
    (join_with f1 f2).offsets = f1.offsets ++ f2.offsets ∧
    (∃ a b : Nat, (join_with f1 f2).output_yslices =
      (f1.output_yslices.map fun s => Slice.mk (s.start + a) (s.stop + a)) ++
      (f2.output_yslices.map fun s => Slice.mk (s.start + b) (s.stop + b))) ∧
    (∃ a b : Nat, (join_with f1 f2).output_xslices =
      (f1.output_xslices.map fun s => Slice.mk (s.start + a) (s.stop + a)) ++
      (f2.output_xslices.map fun s => Slice.mk (s.start + b) (s.stop + b))) := by
  rcases hpos : type_of_contiguity f1 f2 with _ | _ | _ | _ | _
  · exact absurd hpos h
  · exact ⟨by simp [join_with, join_with_state, hpos],
      by simp [join_with, join_with_state, hpos],
      by simp [join_with, join_with_state, hpos],
      by simp [join_with, join_with_state, hpos],
      ⟨f2.height_px, 0, by simp [join_with, join_with_state, hpos, map_shift_zero]⟩,
      ⟨0, 0, by simp [join_with, join_with_state, hpos, map_shift_zero]⟩⟩
  · exact ⟨by simp [join_with, join_with_state, hpos],
      by simp [join_with, join_with_state, hpos],
      by simp [join_with, join_with_state, hpos],
      by simp [join_with, join_with_state, hpos],
      ⟨0, f1.height_px, by simp [join_with, join_with_state, hpos, map_shift_zero]⟩,
      ⟨0, 0, by simp [join_with, join_with_state, hpos, map_shift_zero]⟩⟩
  · exact ⟨by simp [join_with, join_with_state, hpos],
      by simp [join_with, join_with_state, hpos],
      by simp [join_with, join_with_state, hpos],
      by simp [join_with, join_with_state, hpos],
      ⟨0, 0, by simp [join_with, join_with_state, hpos, map_shift_zero]⟩,
      ⟨f2.width_px, 0, by simp [join_with, join_with_state, hpos, map_shift_zero]⟩⟩
  · exact ⟨by simp [join_with, join_with_state, hpos],
      by simp [join_with, join_with_state, hpos],
      by simp [join_with, join_with_state, hpos],
      by simp [join_with, join_with_state, hpos],
      ⟨0, 0, by simp [join_with, join_with_state, hpos, map_shift_zero]⟩,
      ⟨0, f1.width_px, by simp [join_with, join_with_state, hpos, map_shift_zero]⟩⟩

/-- C10, witness: applied to the `ABOVE` pair. -/
theorem join_with_receiver_entries_first_witness :
    (join_with field_join_lo field_join_hi).yslices =
      field_join_lo.yslices ++ field_join_hi.yslices ∧
    (join_with field_join_lo field_join_hi).xslices =
      field_join_lo.xslices ++ field_join_hi.xslices ∧
    (join_with field_join_lo field_join_hi).roi_ids =
      field_join_lo.roi_ids ++ field_join_hi.roi_ids ∧
    (join_with field_join_lo field_join_hi).offsets =
      field_join_lo.offsets ++ field_join_hi.offsets ∧
    (∃ a b : Nat, (join_with field_join_lo field_join_hi).output_yslices =
      (field_join_lo.output_yslices.map fun s =>
        Slice.mk (s.start + a) (s.stop + a)) ++
      (field_join_hi.output_yslices.map fun s =>
        Slice.mk (s.start + b) (s.stop + b))) ∧
    (∃ a b : Nat, (join_with field_join_lo field_join_hi).output_xslices =
      (field_join_lo.output_xslices.map fun s =>
        Slice.mk (s.start + a) (s.stop + a)) ++
      (field_join_hi.output_xslices.map fun s =>
        Slice.mk (s.start + b) (s.stop + b))) :=
  join_with_receiver_entries_first field_join_lo field_join_hi (by decide)

/-! ### C3 -/

/-- C3: with discrete-plane mode on, `get_field_at` returns the field of
the last-defined scanfield (in original definition order) whose depth
equals the query, or an absent result when no depth matches.  The
stored-order scan of the sorted cache agrees with the definition order
because the construction-time sort is stable (`filter_insertionSort`),
so later entries at the same depth still shadow earlier ones. -/
theorem get_field_at_discrete_last_wins (roi : ROI) (d : Int)
    (h : is_discrete_plane_mode_on roi = true) :
    get_field_at roi d =
      Except.ok ((roi.scanfieldInfos.filter fun sf => decide (d = sf.depth)).getLast?.map
        as_field) := by
  unfold get_field_at
  rw [h]
  rw [if_pos rfl]
  rw [foldl_last_match]
  unfold scanfields create_scanfields
  rw [filter_insertionSort]
  cases (roi.scanfieldInfos.filter fun sf => decide (d = sf.depth)).getLast? <;> rfl

/-- C3, witness: the discrete ROI with two scanfields both at depth 5
yields the field of the second-defined scanfield only. -/
theorem get_field_at_discrete_last_wins_witness :
    get_field_at roi_discrete 5 = Except.ok (some (as_field scanfield_dup2)) := by
  have h := get_field_at_discrete_last_wins roi_discrete 5 rfl
  rw [h]
  decide

/-! ### C8 -/

/-- C8: for a continuous-mode ROI with at least two scanfields and a
query depth strictly outside the inclusive range spanned by the
scanfield depths, `get_field_at` returns an absent result (`None`) and
raises no exception. -/
theorem get_field_at_out_of_range_absent (roi : ROI) (d lo hi : Int)
    (hmode : is_discrete_plane_mode_on roi = false)
    (hlen : 2 ≤ (scanfields roi).length)
    (hlo : ((scanfields roi).map (fun sf => sf.depth)).min? = some lo)
    (hhi : ((scanfields roi).map (fun sf => sf.depth)).max? = some hi)
    (hout : d < lo ∨ hi < d) :
    get_field_at roi d = Except.ok none := by
  unfold get_field_at
  rw [hmode]
  have h1 : ¬ (scanfields roi).length = 1 := by omega
  have h2 : ¬ (lo ≤ d ∧ d ≤ hi) := by omega
  simp [h1, hlo, hhi, h2]

/-- C8, witness: the depth-0/depth-10 continuous ROI queried at depth 11
returns an absent result. -/
theorem get_field_at_out_of_range_absent_witness :
    get_field_at roi_continuous 11 = Except.ok none :=
  get_field_at_out_of_range_absent roi_continuous 11 0 10 rfl (by decide)
    (by decide) (by decide) (Or.inr (by decide))

/-! ### C9 -/

/-- C9, counterexample: the pixel (0, 0) of `field_mask_big_id` lies
inside its single placement region, whose `roi_ids` entry is 200, yet
`roi_mask` holds -56 there (200 reduced into the `int8` range by the
`dtype=np.int8` of the mask), not the entry exactly. -/
theorem roi_mask_int8_counterexample :
    roi_mask field_mask_big_id 0 0 = -56 ∧
    ¬ roi_mask field_mask_big_id 0 0 = 200 := by
  decide

/-- C9, amended: every pixel outside all placement regions holds the
sentinel -1; a pixel inside some placement region holds the `int8`
reduction (`to_int8`, exact for ids in [-128, 127]) of the `roi_ids`
entry of the last covering region in list order — later entries
overwrite earlier ones on overlap. -/
theorem roi_mask_characterization (f : Field) (i j : Nat)
    (hi : i < f.height_px) (hj : j < f.width_px)
    (hlen1 : f.roi_ids.length = f.output_yslices.length)
    (hlen2 : f.roi_ids.length = f.output_xslices.length) :
    ((∀ e ∈ f.roi_ids.zip (f.output_yslices.zip f.output_xslices),
        ¬ (slice_contains e.2.1 i && slice_contains e.2.2 j) = true) →
      roi_mask f i j = -1) ∧
    (∀ (pre post : List (Int × Slice × Slice)) (e : Int × Slice × Slice),
      f.roi_ids.zip (f.output_yslices.zip f.output_xslices) = pre ++ e :: post →
      (slice_contains e.2.1 i && slice_contains e.2.2 j) = true →
      (∀ e2 ∈ post, ¬ (slice_contains e2.2.1 i && slice_contains e2.2.2 j) = true) →
      roi_mask f i j = to_int8 e.1) := by
  constructor
  · intro hall
    unfold roi_mask
    rw [foldl_paint_spec]
    have hnone : ((f.roi_ids.zip (f.output_yslices.zip f.output_xslices)).reverse.find?
        fun e => slice_contains e.2.1 i && slice_contains e.2.2 j) = none := by
      rw [List.find?_eq_none]
      intro x hx
      simpa using hall x (List.mem_reverse.mp hx)
    rw [hnone]
    rfl
  · intro pre post e heq hcov hpost
    unfold roi_mask
    rw [foldl_paint_spec, heq, List.reverse_append, List.reverse_cons, List.append_assoc,
      List.singleton_append]
    have h1 : (post.reverse.find?
        fun e => slice_contains e.2.1 i && slice_contains e.2.2 j) = none := by
      rw [List.find?_eq_none]
      intro x hx
      simpa using hpost x (List.mem_reverse.mp hx)
    rw [List.find?_append, h1, List.find?_cons, hcov]
    rfl

/-- C9, witness: in the two-region field, pixel (1, 0) is covered only
by the first region (id 3), so the mask holds `to_int8 3 = 3` there. -/
theorem roi_mask_characterization_witness :
    roi_mask field_mask_two 1 0 = to_int8 3 :=
  (roi_mask_characterization field_mask_two 1 0 (by decide) (by decide) rfl rfl).2
    [] [(5, Slice.mk 0 1, Slice.mk 0 2)] (3, Slice.mk 0 2, Slice.mk 0 2)
    (by decide) (by decide) (by decide)

end Scanreader
